import Mathlib

/-!
Verification development for the csv-mapper repository.

The repository is a CSV-to-schema mapping tool: a React UI (under `ui/src`)
talking to a FastAPI backend.  The UI sources are embedded here directly;
the backend engine sources (`app/services/mapping_suggester.py`,
`app/services/validator.py`, `app/models/schema_def.py`) are not part of the
source tree available here, so the suggestion and validation engines are
modelled from the design specification, as flagged on each such definition.

All embedded functions are pure: React state updates are modelled as
functions from old state to new state, and HTTP request construction is
modelled as the record of data that would be sent.
-/

namespace CsvMapper

/-! ### A model of JavaScript plain objects used as string maps

`Record<string, string>` values in the UI are modelled as association lists
with unique keys.  `setKey` models `obj[k] = v` / `{...obj, [k]: v}`:
an existing key is overwritten in place, a new key is appended, matching
JavaScript property insertion order semantics. -/

abbrev StrMap := List (String × String)

def lookupKey (m : StrMap) (k : String) : Option String :=
  (m.find? (fun p => p.1 = k)).map (fun p => p.2)

def setKey (m : StrMap) (k v : String) : StrMap :=
  match m with
  | [] => [(k, v)]
  | (k', v') :: rest => if k' = k then (k, v) :: rest else (k', v') :: setKey rest k v

/-! ### Character-level string utilities

The kind recognizers and name normalisation are defined over `List Char`
(`String.data`) so that every definition reduces in the kernel. -/

def isWsChar (c : Char) : Bool :=
  c = ' ' || c = '\t' || c = '\n' || c = '\r' || c = '\x0b' || c = '\x0c'

/-- Models JavaScript `String.prototype.trim` (and Python `str.strip`):
drop whitespace from both ends. -/
def jsTrim (s : String) : String :=
  String.mk ((((s.data.dropWhile isWsChar).reverse).dropWhile isWsChar).reverse)

def isBlank (s : String) : Bool := jsTrim s = ""

/-- Split a character list on a separator character; always returns at least
one (possibly empty) chunk, like `String.split`. -/
def splitOnChar (sep : Char) (l : List Char) : List (List Char) :=
  match l with
  | [] => [[]]
  | c :: rest =>
    let r := splitOnChar sep rest
    if c = sep then [] :: r
    else
      match r with
      | [] => [[c]]
      | h :: t => (c :: h) :: t

def leadsWith : List Char → List Char → Bool
  | [], _ => true
  | _ :: _, [] => false
  | a :: as, b :: bs => a = b && leadsWith as bs

def containsSeq (pat : List Char) (l : List Char) : Bool :=
  match l with
  | [] => leadsWith pat []
  | _ :: rest => leadsWith pat l || containsSeq pat rest

/-! ### Types embedded from ui/src/types/index.ts -/

/-- Embeds interface SchemaField (ui/src/types/index.ts, lines 1-4): the
client-side schema field carries only a name and a required flag. -/
structure SchemaField where
  name : String
  required : Bool
deriving DecidableEq

/-- Embeds interface Suggestion (ui/src/types/index.ts).  The confidence is a
JSON number; it is modelled as a rational. -/
structure Suggestion where
  schema_field : String
  csv_column : String
  confidence : Rat
deriving DecidableEq

/-- Embeds interface ValidateMappingResponse (ui/src/types/index.ts, lines
33-36): is_valid is a boolean and errors is a flat list of strings. -/
structure ValidateMappingResponse where
  is_valid : Bool
  errors : List String
deriving DecidableEq

/-! ### Embedded UI logic -/

/-- The status state of ActionPanel (ui/src/components/ActionPanel.tsx). -/
inductive PanelStatus
  | idle
  | validating
  | success
  | error
deriving DecidableEq

/-- Embeds the filter shared by handleValidate (ActionPanel.tsx) and
handleSaveMapping / handleSaveData (StoragePanel.tsx):
Object.entries(mapping).filter(p => p.2 != null and p.2 is not the empty
string).  Values have TypeScript type string, so the null check is
vacuously true and only the emptiness test remains. -/
def filterEmptyEntries (mapping : StrMap) : StrMap :=
  mapping.filter (fun p => !(p.2 = ""))

/-- Embeds the request body built by ActionPanel.handleValidate together with
api.validateMapping (ui/src/services/api.ts). -/
structure ValidateMappingRequest where
  file_id : String
  has_header : Bool
  mapping : StrMap
deriving DecidableEq

def handleValidateRequest (fileId : String) (hasHeader : Bool)
    (mapping : StrMap) : ValidateMappingRequest :=
  { file_id := fileId, has_header := hasHeader, mapping := filterEmptyEntries mapping }

/-- Embeds the state ActionPanel.handleValidate reaches once the response
arrives: on is_valid the status becomes success with an empty error list,
otherwise the status becomes error and errorList is set to the errors of the response verbatim. -/
def handleValidateResult (resp : ValidateMappingResponse) : PanelStatus × List String :=
  if resp.is_valid then (PanelStatus.success, []) else (PanelStatus.error, resp.errors)

/-- Embeds the rendering data of ValidationReport (ActionPanel.tsx):
the stated total, the errors actually rendered, and the optional
"... and N more errors." note. -/
structure ReportView where
  totalCount : Nat
  displayErrors : List String
  remainingNote : Option Int
deriving DecidableEq

/-- The constant MAX_DISPLAY of ValidationReport. -/
def MAX_DISPLAY : Nat := 100

/-- Embeds ValidationReport (ActionPanel.tsx, the component rendering the
error list): displayErrors = errors.slice(0, MAX_DISPLAY), the header states
totalCount = errors.length, and the remaining count is rendered only when
positive.  remaining is computed as an integer, as in JavaScript. -/
def validationReport (errors : List String) : ReportView :=
  let totalCount := errors.length
  let displayErrors := errors.take MAX_DISPLAY
  let remaining : Int := (totalCount : Int) - (MAX_DISPLAY : Int)
  { totalCount := totalCount
    displayErrors := displayErrors
    remainingNote := if remaining > 0 then some remaining else none }

/-- The slice of App state (ui/src/App.tsx) touched by upload and mapping
logic. -/
structure AppState where
  mapping : StrMap
  currentFileId : Option String
  currentHasHeader : Bool
  statusMessage : String
deriving DecidableEq

/-- Embeds App.handleUploadComplete (App.tsx, lines 68-72): setMapping({}),
then setCurrentFileId(fileId), then setCurrentHasHeader(hasHeader). -/
def handleUploadComplete (st : AppState) (fileId : String) (hasHeader : Bool) : AppState :=
  { st with
      mapping := []
      currentFileId := some fileId
      currentHasHeader := hasHeader }

/-- The acceptance test of App.handleAutoSuggest (App.tsx): the JavaScript
condition s.schema_field and s.confidence >= 0.5, where an empty string is
falsy. -/
def suggestionPasses (s : Suggestion) : Bool :=
  !(s.schema_field = "") && ((1 : Rat) / 2 ≤ s.confidence)

/-- Embeds the mapping built by App.handleAutoSuggest (App.tsx, lines 74-98):
starting from the empty object, each suggestion passing the acceptance test
writes its csv_column under its schema_field. -/
def applySuggestions (suggestions : List Suggestion) : StrMap :=
  suggestions.foldl
    (fun m s => if suggestionPasses s then setKey m s.schema_field s.csv_column else m) []

/-- Embeds App.updateMapping (App.tsx, lines 100-105): the functional state
update spreading the previous mapping and setting one computed key. -/
def updateMapping (mapping : StrMap) (schemaField csvColumn : String) : StrMap :=
  setKey mapping schemaField csvColumn

/-- Embeds the form data built by StoragePanel.handleSaveMapping together
with api.saveMapping. -/
structure SaveMappingRequest where
  name : String
  mapping_json : StrMap
deriving DecidableEq

/-- Embeds StoragePanel.handleSaveMapping (StoragePanel.tsx, lines 27-43):
the saved mapping filters empty entries, and the name falls back to
"Unnamed mapping" when the trimmed input is empty (JavaScript
mappingName.trim() or-else default, the empty string being falsy). -/
def handleSaveMappingRequest (mappingName : String) (mapping : StrMap) : SaveMappingRequest :=
  { name := if jsTrim mappingName = "" then "Unnamed mapping" else jsTrim mappingName
    mapping_json := filterEmptyEntries mapping }

/-- Embeds the form data built by StoragePanel.handleSaveData together with
api.saveData (the ingest-data request). -/
structure IngestDataRequest where
  file_id : String
  has_header : Bool
  mapping_json : StrMap
deriving DecidableEq

def handleSaveDataRequest (fileId : String) (hasHeader : Bool)
    (mapping : StrMap) : IngestDataRequest :=
  { file_id := fileId, has_header := hasHeader, mapping_json := filterEmptyEntries mapping }

/-! ### Spec-modelled backend data model

The backend sources app/models/schema_def.py, app/services/mapping_suggester.py
and app/services/validator.py are not part of the available source tree, so
the engine definitions below are modelled from the design specification
(sections 3, 4.2 and 4.3), as stated on each definition. -/

/-- Modelled from the spec: the closed set of expected_kind values of a
SchemaField (spec section 3) — string, email, date, boolean, enum (with its
fixed allowed value set), free-text identifier.  The concrete schema lives in
app/models/schema_def.py, absent from the source tree. -/
inductive FieldKind
  | string
  | email
  | date
  | boolean
  | enum (allowed : List String)
  | identifier
deriving DecidableEq

/-- Modelled from the spec: the backend SchemaField (spec section 3) with
name, required flag and expected_kind; app/models/schema_def.py is absent
from the source tree. -/
structure SchemaFieldCore where
  name : String
  required : Bool
  expected_kind : FieldKind
deriving DecidableEq

def kindName : FieldKind → String
  | FieldKind.string => "string"
  | FieldKind.email => "email"
  | FieldKind.date => "date"
  | FieldKind.boolean => "boolean"
  | FieldKind.enum _ => "enum"
  | FieldKind.identifier => "identifier"

/-- Modelled from the spec: a Column (spec section 3) — a name and a bounded
ordered sample of raw cell values. -/
structure Column where
  name : String
  sample_values : List String
deriving DecidableEq

/-! ### Spec-modelled kind recognizers (spec sections 4.2 and 9) -/

/-- Modelled from the spec: the email recognizer — the value contains one
`@` separating a non-empty local part from a domain-like suffix (at least two
non-empty dot-separated labels). -/
def isEmailValue (s : String) : Bool :=
  match splitOnChar '@' s.data with
  | [locPart, domain] =>
    !(locPart = []) &&
      (match splitOnChar '.' domain with
       | labels => labels.length ≥ 2 && labels.all (fun l => !(l = [])))
  | _ => false

def digitVal (c : Char) : Nat := c.toNat - '0'.toNat

/-- Modelled from the spec: the date recognizer — the value parses as an
ISO calendar date YYYY-MM-DD with a plausible month and day. -/
def isDateValue (s : String) : Bool :=
  match s.data with
  | [y1, y2, y3, y4, d1, m1, m2, d2, a1, a2] =>
    [y1, y2, y3, y4, m1, m2, a1, a2].all Char.isDigit &&
      d1 = '-' && d2 = '-' &&
      (let month := 10 * digitVal m1 + digitVal m2
       let day := 10 * digitVal a1 + digitVal a2
       1 ≤ month && month ≤ 12 && 1 ≤ day && day ≤ 31)
  | _ => false

/-- Modelled from the spec: the boolean recognizer — case-insensitive
membership in the small vocabulary true/false/1/0/yes/no. -/
def isBoolValue (s : String) : Bool :=
  ["true", "false", "1", "0", "yes", "no"].contains
    (String.mk (s.data.map Char.toLower))

/-- Modelled from the spec: the recognizer lookup keyed by expected_kind
(spec section 9); string and identifier are unconstrained, enum is fixed-set
membership. -/
def recognize (kind : FieldKind) (v : String) : Bool :=
  match kind with
  | FieldKind.string => true
  | FieldKind.email => isEmailValue v
  | FieldKind.date => isDateValue v
  | FieldKind.boolean => isBoolValue v
  | FieldKind.enum allowed => allowed.contains v
  | FieldKind.identifier => true

/-- A kind is content-constrained (spec section 4.2 step 2) when it has a
content recognizer used for probing: email, date or boolean. -/
def isConstrainedKind : FieldKind → Bool
  | FieldKind.email => true
  | FieldKind.date => true
  | FieldKind.boolean => true
  | _ => false

/-! ### Spec-modelled suggestion engine (spec section 4.2) -/

/-- Modelled from the spec: name normalisation — lower-case and strip
non-alphanumeric separators. -/
def normalizeName (s : String) : List Char :=
  (s.data.filter Char.isAlphanum).map Char.toLower

/-- Modelled from the spec: the token list of a name — maximal alphanumeric
runs, lower-cased. -/
def nameTokens (s : String) : List (List Char) :=
  ((splitOnChar ' ' (s.data.map
      (fun c => if c.isAlphanum then c.toLower else ' '))).filter
    (fun t => !(t = [])))

/-- Modelled from the spec: name similarity in [0,1] — exact normalized
match scores 1, substring containment in either direction scores 0.8 (the
high band), token overlap fills the remainder scaled into [0, 0.7], and no
overlap scores 0. -/
def nameSimilarity (a b : String) : Rat :=
  let na := normalizeName a
  let nb := normalizeName b
  if na = nb then 1
  else if !(na = []) && !(nb = []) && (containsSeq na nb || containsSeq nb na) then
    (8 : Rat) / 10
  else
    let ta := nameTokens a
    let tb := nameTokens b
    let common := ta.filter (fun t => tb.contains t)
    if common = [] then 0
    else ((7 : Rat) / 10) * (common.length : Rat) / (max ta.length tb.length : Rat)

/-- Modelled from the spec: content score — the fraction of sampled values
satisfying the kind recognizer; an empty sample contributes 0. -/
def contentScore (kind : FieldKind) (samples : List String) : Rat :=
  if samples = [] then 0
  else ((samples.countP (fun v => recognize kind v)) : Rat) / (samples.length : Rat)

/-- Modelled from the spec: combined score — for content-constrained kinds a
name-dominant blend of name similarity and content score; for unconstrained
kinds the name similarity alone. -/
def combinedScore (f : SchemaFieldCore) (col : Column) : Rat :=
  let n := nameSimilarity f.name col.name
  if isConstrainedKind f.expected_kind then
    (7 * n + 3 * contentScore f.expected_kind col.sample_values) / 10
  else n

/-- Modelled from the spec: column selection — the highest-scoring column,
scanning columns in their given order and keeping the earlier one on ties
(stable, deterministic); with no columns or only zero scores the result is
the empty column name with confidence 0. -/
def pickBest (f : SchemaFieldCore) (columns : List Column) : String × Rat :=
  columns.foldl
    (fun best col =>
      let sc := combinedScore f col
      if best.2 < sc then (col.name, sc) else best)
    ("", 0)

/-- Modelled from the spec: the suggestion engine
(app/services/mapping_suggester.py, absent from the source tree) — one
Suggestion per schema field, in schema order, each carrying the best
candidate column and its raw score regardless of magnitude. -/
def suggest (columns : List Column) (schema : List SchemaFieldCore) : List Suggestion :=
  schema.map (fun f =>
    let best := pickBest f columns
    { schema_field := f.name, csv_column := best.1, confidence := best.2 })

/-! ### Spec-modelled validation engine (spec section 4.3) -/

/-- Modelled from the spec: the closed error reason taxonomy of the
validation contract (spec section 6). -/
inductive Reason
  | MISSING_REQUIRED_MAPPING
  | UNKNOWN_COLUMN
  | REQUIRED_VALUE_MISSING
  | INVALID_FORMAT
  | INVALID_ENUM_VALUE
deriving DecidableEq

/-- Modelled from the spec: a ValidationError (spec section 3) — an optional
0-based row index (absent for mapping-level errors), the schema field name,
a taxonomy reason and a human-readable message. -/
structure ValidationError where
  row_index : Option Nat
  field : String
  reason : Reason
  message : String
deriving DecidableEq

def columnNames (columns : List Column) : List String :=
  columns.map (fun c => c.name)

/-- Modelled from the spec: phase 1, the mapping-level check of one field
(spec section 4.3 step 1) — a required field without a non-empty mapped
column yields MISSING_REQUIRED_MAPPING; a mapping referencing a column name
absent from the file yields UNKNOWN_COLUMN. -/
def mappingLevelError (mapping : StrMap) (columns : List Column)
    (f : SchemaFieldCore) : Option ValidationError :=
  match lookupKey mapping f.name with
  | none =>
    if f.required then
      some { row_index := none, field := f.name,
             reason := Reason.MISSING_REQUIRED_MAPPING,
             message := "Required field " ++ f.name ++ " is not mapped" }
    else none
  | some c =>
    if c = "" then
      if f.required then
        some { row_index := none, field := f.name,
               reason := Reason.MISSING_REQUIRED_MAPPING,
               message := "Required field " ++ f.name ++ " is not mapped" }
      else none
    else if (columnNames columns).contains c then none
    else
      some { row_index := none, field := f.name,
             reason := Reason.UNKNOWN_COLUMN,
             message := "Mapped column " ++ c ++ " is not present in the file" }

/-- Modelled from the spec: the column position a field reads from, defined
exactly when the field is mapped to a non-empty name found among the columns
of the file — i.e. exactly when phase 1 passes for a mapped field; an unmapped
field is skipped by row-level checks. -/
def resolvedColumn (mapping : StrMap) (columns : List Column)
    (f : SchemaFieldCore) : Option Nat :=
  match lookupKey mapping f.name with
  | none => none
  | some c =>
    if c = "" then none
    else columns.findIdx? (fun col => col.name = c)

/-- Modelled from the spec: phase 2, the row-level check of one field on one
row (spec section 4.3 step 2); a missing cell of a ragged row is treated as
the empty value, a blank value of a required field yields
REQUIRED_VALUE_MISSING, a present value failing the kind recognizer yields
INVALID_FORMAT (INVALID_ENUM_VALUE for enum kinds) with the offending value
quoted in the message. -/
def rowCheckField (mapping : StrMap) (columns : List Column) (i : Nat)
    (row : List String) (f : SchemaFieldCore) : Option ValidationError :=
  match resolvedColumn mapping columns f with
  | none => none
  | some j =>
    let v := row.getD j ""
    if isBlank v then
      if f.required then
        some { row_index := some i, field := f.name,
               reason := Reason.REQUIRED_VALUE_MISSING,
               message := "Row " ++ toString i ++ ": required field " ++
                 f.name ++ " has no value" }
      else none
    else
      match f.expected_kind with
      | FieldKind.enum allowed =>
        if allowed.contains v then none
        else
          some { row_index := some i, field := f.name,
                 reason := Reason.INVALID_ENUM_VALUE,
                 message := "Row " ++ toString i ++ ": value \"" ++ v ++
                   "\" is not an allowed value for " ++ f.name }
      | k =>
        if recognize k v then none
        else
          some { row_index := some i, field := f.name,
                 reason := Reason.INVALID_FORMAT,
                 message := "Row " ++ toString i ++ ": value \"" ++ v ++
                   "\" does not match the expected " ++ kindName k ++
                   " format for " ++ f.name }

/-- Modelled from the spec: all mapping-level errors, one pass over the
schema in order. -/
def mappingErrors (mapping : StrMap) (columns : List Column)
    (schema : List SchemaFieldCore) : List ValidationError :=
  schema.filterMap (mappingLevelError mapping columns)

/-- Modelled from the spec: all row-level errors of one row, one pass over
the schema in order. -/
def rowErrorsAt (mapping : StrMap) (columns : List Column)
    (schema : List SchemaFieldCore) (i : Nat) (row : List String) :
    List ValidationError :=
  schema.filterMap (rowCheckField mapping columns i row)

structure ValidateResult where
  is_valid : Bool
  errors : List ValidationError
deriving DecidableEq

/-- Modelled from the spec: the validation engine
(app/services/validator.py, absent from the source tree) — mapping-level
errors followed by the row-level errors of every row in order, accumulated
without stopping; is_valid holds exactly when the accumulated list is
empty. -/
def validate (mapping : StrMap) (columns : List Column)
    (rows : List (List String)) (schema : List SchemaFieldCore) : ValidateResult :=
  let errs :=
    mappingErrors mapping columns schema ++
      ((List.range rows.length).map
        (fun i => rowErrorsAt mapping columns schema i (rows.getD i []))).flatten
  { is_valid := errs.isEmpty, errors := errs }

/-! ### Supporting definitions for the theorems -/

/-- The closed set of error reason code names of the validation contract
(spec section 6). -/
def reasonCodeNames : List String :=
  ["MISSING_REQUIRED_MAPPING", "UNKNOWN_COLUMN", "REQUIRED_VALUE_MISSING",
   "INVALID_FORMAT", "INVALID_ENUM_VALUE"]

/-- Whether a string mentions any reason code of the closed taxonomy as a
substring. -/
def mentionsReasonCode (s : String) : Bool :=
  reasonCodeNames.any (fun c => containsSeq c.data s.data)

/-- A one-field demonstration schema: the required email field of the worked example of the spec. -/
def demoSchema : List SchemaFieldCore :=
  [{ name := "email", required := true, expected_kind := FieldKind.email }]

def demoMapping : StrMap := [("email", "E-mail")]

def demoColumns : List Column :=
  [{ name := "E-mail", sample_values := ["a@b.com", "not-an-email"] }]

/-! ### Helper lemmas -/

theorem lookupKey_cons (k' v' : String) (rest : StrMap) (g : String) :
    lookupKey ((k', v') :: rest) g = if k' = g then some v' else lookupKey rest g := by
  by_cases h : k' = g
  · simp [lookupKey, List.find?, h]
  · simp [lookupKey, List.find?, h]

theorem lookupKey_setKey_self (m : StrMap) (k v : String) :
    lookupKey (setKey m k v) k = some v := by
  induction m with
  | nil => simp [setKey, lookupKey_cons]
  | cons p rest ih =>
    obtain ⟨k', v'⟩ := p
    simp only [setKey]
    by_cases h : k' = k
    · simp [h, lookupKey_cons]
    · simp [h, lookupKey_cons, ih]

theorem lookupKey_setKey_other (m : StrMap) (k v g : String) (hne : g ≠ k) :
    lookupKey (setKey m k v) g = lookupKey m g := by
  induction m with
  | nil => simp [setKey, lookupKey_cons, Ne.symm hne]
  | cons p rest ih =>
    obtain ⟨k', v'⟩ := p
    simp only [setKey]
    by_cases h : k' = k
    · subst h
      simp [lookupKey_cons, Ne.symm hne]
    · simp [h, lookupKey_cons, ih]

theorem getD_replicate {α : Type} :
    ∀ (n i : Nat) (a d : α), i < n → (List.replicate n a).getD i d = a
  | _ + 1, 0, _, _, _ => rfl
  | n + 1, i + 1, a, d, h => getD_replicate n i a d (Nat.lt_of_succ_lt_succ h)

theorem rowCheckField_row_index (mapping : StrMap) (columns : List Column)
    (i : Nat) (row : List String) (f : SchemaFieldCore) (e : ValidationError)
    (h : rowCheckField mapping columns i row f = some e) :
    e.row_index = some i := by
  unfold rowCheckField at h
  cases hres : resolvedColumn mapping columns f <;> rw [hres] at h
  · exact absurd h (by simp)
  · simp only at h
    repeat' split at h
    all_goals cases h
    all_goals rfl

theorem mem_rowErrorsAt_row_index (mapping : StrMap) (columns : List Column)
    (schema : List SchemaFieldCore) (i : Nat) (row : List String)
    (e : ValidationError) (h : e ∈ rowErrorsAt mapping columns schema i row) :
    e.row_index = some i := by
  rw [rowErrorsAt, List.mem_filterMap] at h
  obtain ⟨f, _, hf⟩ := h
  exact rowCheckField_row_index mapping columns i row f e hf

theorem get_congr {α : Type} (l l' : List α) (h : l = l') (i : Nat)
    (hi : i < l.length) : l.get ⟨i, hi⟩ = l'.get ⟨i, h ▸ hi⟩ := by
  subst h
  rfl

theorem flatten_singleton_spec {α : Type} (L : List (List α))
    (h : ∀ l ∈ L, l.length = 1) :
    L.flatten.length = L.length ∧
    ∀ i (h1 : i < L.flatten.length) (h2 : i < L.length),
      L.flatten.get ⟨i, h1⟩ ∈ L.get ⟨i, h2⟩ := by
  induction L with
  | nil => simp
  | cons l L ih =>
    have hl : l.length = 1 := h l (by simp)
    obtain ⟨a, rfl⟩ : ∃ a, l = [a] := by
      match l, hl with
      | [a], _ => exact ⟨a, rfl⟩
    have ih' := ih (fun l hl => h l (by simp [hl]))
    constructor
    · simp [ih'.1]
    · intro i h1 h2
      match i with
      | 0 => simp
      | Nat.succ i =>
        simp only [List.flatten_cons, List.singleton_append, List.get_cons_succ]
        have h1' : i < L.flatten.length := by
          have := h1
          simp only [List.flatten_cons, List.singleton_append, List.length_cons] at this
          omega
        have h2' : i < L.length := by
          simp only [List.length_cons] at h2
          omega
        exact ih'.2 i h1' h2'

/-- The accumulated error list of validate, spelled out. -/
theorem validate_errors_eq (mapping : StrMap) (columns : List Column)
    (rows : List (List String)) (schema : List SchemaFieldCore) :
    (validate mapping columns rows schema).errors =
      mappingErrors mapping columns schema ++
        ((List.range rows.length).map
          (fun i => rowErrorsAt mapping columns schema i (rows.getD i []))).flatten := rfl

/-- When no mapping-level error occurs and every row produces exactly one
row-level error, validate returns one error per row carrying the index of that row. -/
theorem validate_one_error_per_row (mapping : StrMap) (columns : List Column)
    (rows : List (List String)) (schema : List SchemaFieldCore)
    (hmap : mappingErrors mapping columns schema = [])
    (hone : ∀ i, i < rows.length →
      (rowErrorsAt mapping columns schema i (rows.getD i [])).length = 1) :
    (validate mapping columns rows schema).errors.length = rows.length ∧
    ∀ i (hi : i < (validate mapping columns rows schema).errors.length),
      ((validate mapping columns rows schema).errors.get ⟨i, hi⟩).row_index = some i := by
  have herr :
      (validate mapping columns rows schema).errors =
        ((List.range rows.length).map
          (fun i => rowErrorsAt mapping columns schema i (rows.getD i []))).flatten := by
    rw [validate_errors_eq, hmap, List.nil_append]
  have hsing :
      ∀ l ∈ (List.range rows.length).map
        (fun i => rowErrorsAt mapping columns schema i (rows.getD i [])), l.length = 1 := by
    intro l hl
    rw [List.mem_map] at hl
    obtain ⟨i, hi, rfl⟩ := hl
    exact hone i (List.mem_range.mp hi)
  have hspec := flatten_singleton_spec _ hsing
  have hlen :
      (validate mapping columns rows schema).errors.length = rows.length := by
    rw [herr, hspec.1, List.length_map, List.length_range]
  refine ⟨hlen, ?_⟩
  intro i hi
  have hi2 : i < ((List.range rows.length).map
      (fun i => rowErrorsAt mapping columns schema i (rows.getD i []))).length := by
    rw [List.length_map, List.length_range]
    have hi' := hi
    rw [hlen] at hi'
    exact hi'
  have hi1 : i < ((List.range rows.length).map
      (fun i => rowErrorsAt mapping columns schema i (rows.getD i []))).flatten.length :=
    herr ▸ hi
  have hmem := hspec.2 i hi1 hi2
  have hblock :
      ((List.range rows.length).map
        (fun i => rowErrorsAt mapping columns schema i (rows.getD i []))).get ⟨i, hi2⟩ =
        rowErrorsAt mapping columns schema i (rows.getD i []) := by
    simp
  rw [hblock] at hmem
  rw [get_congr _ _ herr i hi]
  exact mem_rowErrorsAt_row_index mapping columns schema i (rows.getD i []) _ hmem

theorem applySuggestions_append (ss : List Suggestion) (s : Suggestion) :
    applySuggestions (ss ++ [s]) =
      if suggestionPasses s then
        setKey (applySuggestions ss) s.schema_field s.csv_column
      else applySuggestions ss := by
  simp [applySuggestions, List.foldl_append]

theorem lookupKey_applySuggestions (ss : List Suggestion) (f : String) :
    lookupKey (applySuggestions ss) f =
      (((ss.filter suggestionPasses).filter
          (fun s => s.schema_field = f)).getLast?).map (fun s => s.csv_column) := by
  induction ss using List.reverseRecOn with
  | nil => rfl
  | append_singleton ss s ih =>
    rw [applySuggestions_append]
    by_cases hp : suggestionPasses s
    · rw [if_pos hp]
      by_cases hf : s.schema_field = f
      · rw [← hf, lookupKey_setKey_self]
        rw [List.filter_append, List.filter_append]
        simp [hp, hf]
      · rw [lookupKey_setKey_other _ _ _ _ (fun hx => hf hx.symm)]
        rw [List.filter_append, List.filter_append]
        simp [hp, hf, ih]
    · rw [if_neg hp]
      rw [List.filter_append]
      simp [hp, ih]

theorem applied_iff_helper (ss : List Suggestion) (f : String) :
    (lookupKey (applySuggestions ss) f).isSome = true ↔
      ∃ s ∈ ss, s.schema_field = f ∧ ¬f = "" ∧ (1 : Rat) / 2 ≤ s.confidence := by
  rw [lookupKey_applySuggestions]
  constructor
  · intro h
    have hne : ((ss.filter suggestionPasses).filter
        (fun s => s.schema_field = f)) ≠ [] := by
      intro hnil
      rw [hnil] at h
      simp at h
    obtain ⟨s, hs⟩ := List.exists_mem_of_ne_nil _ hne
    have hs1 := List.mem_filter.mp hs
    have hs2 := List.mem_filter.mp hs1.1
    have hfield : s.schema_field = f := by simpa using hs1.2
    have hpass := hs2.2
    rw [suggestionPasses, Bool.and_eq_true] at hpass
    refine ⟨s, hs2.1, hfield, ?_, by simpa using hpass.2⟩
    intro hf
    rw [hf] at hfield
    have := hpass.1
    rw [hfield] at this
    simp at this
  · rintro ⟨s, hmem, hfield, hf, hconf⟩
    have hpass : suggestionPasses s = true := by
      rw [suggestionPasses, Bool.and_eq_true]
      exact ⟨by simpa [hfield] using hf, by simpa using hconf⟩
    have hmem2 : s ∈ (ss.filter suggestionPasses).filter
        (fun s => s.schema_field = f) := by
      rw [List.mem_filter, List.mem_filter]
      exact ⟨⟨hmem, hpass⟩, by simpa using hfield⟩
    have hne := List.ne_nil_of_mem hmem2
    rw [Option.isSome_map']
    rw [List.getLast?_isSome]
    exact hne

/-! ### Claim theorems -/

/-- C1 counterexample.  The claim states that every element of the errors of
a Validate response is a structured record with an optional row_index, a
field and a reason drawn from the closed taxonomy.  In the code
(ui/src/types/index.ts, lines 33-36, and ActionPanel.handleValidate) errors
is a flat list of strings: the concrete response below is admitted by the
embedded contract, its single error is handed to the report verbatim, and
that string mentions no reason code of the closed set at all, so the claimed
structure is absent. -/
theorem validate_response_unstructured_error :
    (handleValidateResult { is_valid := false, errors := ["row 3: bad email"] }).2 =
      ["row 3: bad email"] ∧
    mentionsReasonCode "row 3: bad email" = false := by
  constructor
  · rfl
  · decide

/-- C1 (amended): for every call to the Validate contract, the returned value
has shape is_valid together with errors, where errors is a flat list of
human-readable message strings that the client consumes verbatim: on an
invalid result the panel enters the error state holding exactly the error strings of the response, and on a valid result it enters the success state
with no errors. -/
theorem validate_response_shape (resp : ValidateMappingResponse) :
    (resp.is_valid = true →
      handleValidateResult resp = (PanelStatus.success, [])) ∧
    (resp.is_valid = false →
      handleValidateResult resp = (PanelStatus.error, resp.errors)) := by
  constructor <;> intro h <;> simp [handleValidateResult, h]

theorem validate_response_shape_witness :
    handleValidateResult { is_valid := false, errors := ["e1"] } =
      (PanelStatus.error, ["e1"]) :=
  (validate_response_shape { is_valid := false, errors := ["e1"] }).2 rfl

/-- C2: validate accumulates every violation across every row and every
mapped field without stopping at the first error, is_valid holds exactly
when the accumulated error list is empty, and for N data rows each yielding
exactly one row-level error (with no mapping-level error) validate returns
exactly N errors, one per row, each carrying the correct 0-based
row_index. -/
theorem validate_accumulates_all (mapping : StrMap) (columns : List Column)
    (rows : List (List String)) (schema : List SchemaFieldCore) :
    ((validate mapping columns rows schema).is_valid = true ↔
      (validate mapping columns rows schema).errors = []) ∧
    ((validate mapping columns rows schema).errors =
      mappingErrors mapping columns schema ++
        ((List.range rows.length).map
          (fun i => rowErrorsAt mapping columns schema i (rows.getD i []))).flatten) ∧
    (mappingErrors mapping columns schema = [] →
      (∀ i, i < rows.length →
        (rowErrorsAt mapping columns schema i (rows.getD i [])).length = 1) →
      (validate mapping columns rows schema).errors.length = rows.length ∧
      ∀ i (hi : i < (validate mapping columns rows schema).errors.length),
        ((validate mapping columns rows schema).errors.get ⟨i, hi⟩).row_index = some i) := by
  refine ⟨?_, validate_errors_eq mapping columns rows schema, ?_⟩
  · simp [validate, List.isEmpty_iff]
  · intro hmap hone
    exact validate_one_error_per_row mapping columns rows schema hmap hone

theorem validate_accumulates_all_witness :
    mappingErrors demoMapping demoColumns demoSchema = [] ∧
    (validate demoMapping demoColumns [["x"], ["y"]] demoSchema).errors.length = 2 :=
  ⟨by decide,
   ((validate_accumulates_all demoMapping demoColumns [["x"], ["y"]] demoSchema).2.2
      (by decide) (by decide)).1⟩

/-- C3: suggest is deterministic — two calls on identical columns and
identical schema yield identical output, including every confidence value
(exact rationals in this model) to the last represented digit; the engine is
a pure function with stable iteration order, so equal inputs force equal
outputs. -/
theorem suggest_deterministic (c1 c2 : List Column) (s1 s2 : List SchemaFieldCore)
    (hc : c1 = c2) (hs : s1 = s2) : suggest c1 s1 = suggest c2 s2 := by
  rw [hc, hs]

theorem suggest_deterministic_witness :
    suggest [{ name := "Customer Id", sample_values := [] }]
        [{ name := "customer_id", required := true, expected_kind := FieldKind.identifier }] =
      suggest [{ name := "Customer Id", sample_values := [] }]
        [{ name := "customer_id", required := true, expected_kind := FieldKind.identifier }] :=
  suggest_deterministic _ _ _ _ rfl rfl

/-- C4: the reference UI auto-applies a suggestion — writes its csv_column
into the mapping under its schema_field — exactly when the suggestion has a
non-empty schema_field and confidence at least 1/2; the applied value is the
csv_column of the last such suggestion; and the threshold is consumer policy, not
an engine constant: the engine emits one suggestion per schema field
whatever the confidence, never filtering by any threshold. -/
theorem autoApply_policy (suggestions : List Suggestion) (f : String) :
    (lookupKey (applySuggestions suggestions) f =
      (((suggestions.filter suggestionPasses).filter
          (fun s => s.schema_field = f)).getLast?).map (fun s => s.csv_column)) ∧
    ((lookupKey (applySuggestions suggestions) f).isSome = true ↔
      ∃ s ∈ suggestions, s.schema_field = f ∧ ¬f = "" ∧ (1 : Rat) / 2 ≤ s.confidence) ∧
    ∀ (columns : List Column) (schema : List SchemaFieldCore),
      (suggest columns schema).length = schema.length := by
  refine ⟨lookupKey_applySuggestions suggestions f,
    applied_iff_helper suggestions f, ?_⟩
  intro columns schema
  simp [suggest]

/-- C5: the engine never truncates the error list — here 150 invalid rows
yield all 150 errors — while the validation report of the UI displays only the
first min(n, 100) errors in original order, states the total count n, and
when n exceeds 100 reports the remaining n - 100 errors as a summary count
instead of rendering them. -/
theorem validationReport_caps_display (errors : List String) :
    (validationReport errors).displayErrors = errors.take 100 ∧
    (validationReport errors).displayErrors.length = min errors.length 100 ∧
    (validationReport errors).totalCount = errors.length ∧
    ((validationReport errors).remainingNote =
      if 100 < errors.length then some ((errors.length : Int) - 100) else none) ∧
    (validate demoMapping demoColumns
      (List.replicate 150 ["not-an-email"]) demoSchema).errors.length = 150 := by
  refine ⟨rfl, ?_, rfl, ?_, ?_⟩
  · simp [validationReport, MAX_DISPLAY, Nat.min_comm]
  · simp only [validationReport, MAX_DISPLAY]
    by_cases h : 100 < errors.length
    · rw [if_pos h, if_pos (by omega)]
      norm_num
    · rw [if_neg h, if_neg (by omega)]
  · have hone : ∀ i, i < (List.replicate 150 ["not-an-email"]).length →
        (rowErrorsAt demoMapping demoColumns demoSchema i
          ((List.replicate 150 ["not-an-email"]).getD i [])).length = 1 := by
      intro i hi
      rw [List.length_replicate] at hi
      rw [getD_replicate 150 i ["not-an-email"] [] hi]
      rfl
    have := validate_one_error_per_row demoMapping demoColumns
      (List.replicate 150 ["not-an-email"]) demoSchema (by decide) hone
    simpa using this.1

/-- C6: the mapping object sent to validate-mapping, to the mapping save and
to the data ingest endpoint is in all three cases the current mapping with
its empty-valued entries filtered out, and an entry survives the filter
exactly when its value is non-empty (values are strings, so the null guard
of the source filter is vacuous). -/
theorem sent_mapping_filters_empty (fileId : String) (hasHeader : Bool)
    (mappingName : String) (m : StrMap) :
    (handleValidateRequest fileId hasHeader m).mapping = filterEmptyEntries m ∧
    (handleSaveMappingRequest mappingName m).mapping_json = filterEmptyEntries m ∧
    (handleSaveDataRequest fileId hasHeader m).mapping_json = filterEmptyEntries m ∧
    ∀ k v, ((k, v) ∈ filterEmptyEntries m ↔ ((k, v) ∈ m ∧ ¬v = "")) := by
  refine ⟨rfl, rfl, rfl, ?_⟩
  intro k v
  simp [filterEmptyEntries, List.mem_filter]

/-- C7: every SchemaField of the target schema model carries, besides its
name and required flag, an expected_kind drawn from the closed set string,
email, date, boolean, enum, free-text identifier. -/
theorem schemaField_kind_closed (f : SchemaFieldCore) :
    kindName f.expected_kind ∈
      ["string", "email", "date", "boolean", "enum", "identifier"] := by
  cases f.expected_kind <;> simp [kindName]

/-- C8: updateMapping is a frame-preserving point update — the updated
mapping maps the given schema field to the given column and agrees with the
previous mapping on every other schema field. -/
theorem updateMapping_frame (m : StrMap) (f c : String) :
    lookupKey (updateMapping m f c) f = some c ∧
    ∀ g, g ≠ f → lookupKey (updateMapping m f c) g = lookupKey m g :=
  ⟨lookupKey_setKey_self m f c, fun g hg => lookupKey_setKey_other m f c g hg⟩

theorem updateMapping_frame_witness :
    lookupKey (updateMapping [("a", "x")] "b" "y") "b" = some "y" ∧
    lookupKey (updateMapping [("a", "x")] "b" "y") "a" = lookupKey [("a", "x")] "a" :=
  ⟨(updateMapping_frame [("a", "x")] "b" "y").1,
   (updateMapping_frame [("a", "x")] "b" "y").2 "a" (by decide)⟩

/-- C9: handleUploadComplete resets the mapping state to the empty object
while recording the new file id and header flag, so no entry of the mapping
edited for the previous file survives into the session of the new file. -/
theorem handleUploadComplete_resets_mapping (st : AppState) (fileId : String)
    (hasHeader : Bool) :
    (handleUploadComplete st fileId hasHeader).mapping = [] ∧
    (handleUploadComplete st fileId hasHeader).currentFileId = some fileId ∧
    (handleUploadComplete st fileId hasHeader).currentHasHeader = hasHeader ∧
    ∀ k, lookupKey (handleUploadComplete st fileId hasHeader).mapping k = none :=
  ⟨rfl, rfl, rfl, fun _ => rfl⟩

/-- C10: when the entered mapping name trims to the empty string, the save
request is still issued and carries the literal default name
"Unnamed mapping" together with the filtered mapping. -/
theorem saveMapping_default_name (mappingName : String) (m : StrMap)
    (h : jsTrim mappingName = "") :
    (handleSaveMappingRequest mappingName m).name = "Unnamed mapping" ∧
    (handleSaveMappingRequest mappingName m).mapping_json = filterEmptyEntries m := by
  constructor
  · simp [handleSaveMappingRequest, h]
  · rfl

theorem saveMapping_default_name_witness :
    (handleSaveMappingRequest "   " [("email", "E-mail")]).name = "Unnamed mapping" :=
  (saveMapping_default_name "   " [("email", "E-mail")] (by decide)).1

end CsvMapper
